import Mathlib

/-!
Verification of `torch_geometric/nn/conv/hgt_conv.py` (HGTConv forward pass).

Shallow embedding conventions:
* machine floats are modelled as exact rationals; the external numeric
  collaborators (exponential, square root, sigmoid, GELU, the per-type linear
  projections and the random parameter initialisers) are parameters of the
  model, as the spec declares them out of scope;
* a python dict is an association list preserving insertion order;
* a torch tensor of rank n is a rank-n nested list; `Mat` additionally carries
  its column count so that `size(-1)` is meaningful for zero-row tensors;
* fallible python code (KeyError, IndexError, ...) returns `Except String`.
-/

namespace HGTVerify

abbrev NType := String
abbrev EType := String × String × String

/-- A rank-2 tensor with an explicit trailing dimension (`size(-1) = cols`). -/
structure Mat where
  cols : Nat
  rows : List (List ℚ)
deriving DecidableEq, Repr

/-- Rank-3 tensor `[n, heads, headDim]` as used for K/Q/V blocks. -/
abbrev Ten3 := List (List (List ℚ))

/-- A dynamically ranked tensor, used to embed the rank-polymorphic helper
`group` (source lines 30-43), whose result rank depends on the mode. -/
inductive Tsr where
  | scalar : ℚ → Tsr
  | vec : List Tsr → Tsr

/-- Children of a tensor node (the slices along dim 0). -/
def childrenOf : Tsr → List Tsr
  | .scalar _ => []
  | .vec l => l

/-- Rank of a tensor (read off the first slice). -/
def depth : Tsr → Nat
  | .scalar _ => 0
  | .vec [] => 1
  | .vec (x :: _) => depth x + 1

mutual
/-- Elementwise map over a tensor. -/
def mapT (f : ℚ → ℚ) : Tsr → Tsr
  | .scalar q => .scalar (f q)
  | .vec l => .vec (mapTL f l)
def mapTL (f : ℚ → ℚ) : List Tsr → List Tsr
  | [] => []
  | x :: xs => mapT f x :: mapTL f xs
end

mutual
/-- Elementwise zip of two same-shaped tensors. -/
def zipT (f : ℚ → ℚ → ℚ) : Tsr → Tsr → Tsr
  | .scalar a, .scalar b => .scalar (f a b)
  | .vec l, .vec m => .vec (zipTL f l m)
  | t, _ => t
def zipTL (f : ℚ → ℚ → ℚ) : List Tsr → List Tsr → List Tsr
  | a :: as, b :: bs => zipT f a b :: zipTL f as bs
  | _, _ => []
end

mutual
/-- `view(-1)`: flatten a tensor to its scalar entries in row-major order. -/
def flattenT : Tsr → List ℚ
  | .scalar q => [q]
  | .vec l => flattenTL l
def flattenTL : List Tsr → List ℚ
  | [] => []
  | x :: xs => flattenT x ++ flattenTL xs
end

/-- Transpose of a rectangular list of lists (used by stack on dim 1 and cat on the last dim). -/
def transposeL {α : Type} (l : List (List α)) : List (List α) :=
  (List.range (l.headD []).length).map (fun i => l.filterMap (fun r => r.get? i))

/-- `torch.stack(xs, dim=1)`. -/
def stack1 (xs : List Tsr) : Tsr :=
  .vec ((transposeL (xs.map childrenOf)).map Tsr.vec)

/-- `torch.cat(xs, dim=-1)`, by recursion on the rank of the first element. -/
def catLastAux : Nat → List Tsr → Tsr
  | 0, xs => .vec (xs.flatMap childrenOf)
  | d + 1, xs => .vec ((transposeL (xs.map childrenOf)).map (catLastAux d))

def catLast (xs : List Tsr) : Tsr :=
  catLastAux (depth (xs.headD (.vec [])) - 1) xs

/-- `torch.stack(xs, dim=0)` followed by an elementwise reduction over dim 0
(what `getattr(torch, aggr)(out, dim=0)` computes for sum/mean/min/max;
for min/max the values component of the returned tuple is taken). -/
def reduce0 (f : ℚ → ℚ → ℚ) (xs : List Tsr) : Tsr :=
  match xs with
  | [] => .vec []
  | x :: r => r.foldl (zipT f) x

/-- The reduction modes accepted by `group` besides `None` (which stacks). -/
inductive Aggr where
  | sum | mean | min | max | cat
deriving DecidableEq, Repr

/-- Source lines 30-43:
```
def group(xs, aggr):
    if len(xs) == 0: return None
    elif aggr is None: return torch.stack(xs, dim=1)
    elif len(xs) == 1: return xs[0]
    elif aggr == "cat": return torch.cat(xs, dim=-1)
    else:
        out = torch.stack(xs, dim=0)
        out = getattr(torch, aggr)(out, dim=0)
        out = out[0] if isinstance(out, tuple) else out
        return out
```
-/
def group (xs : List Tsr) (aggr : Option Aggr) : Option Tsr :=
  if xs.length = 0 then none
  else if aggr.isNone then some (stack1 xs)
  else if xs.length = 1 then xs.head?
  else match aggr with
  | some .cat => some (catLast xs)
  | some .sum => some (reduce0 (· + ·) xs)
  | some .mean => some (mapT (fun q => q / (xs.length : ℚ)) (reduce0 (· + ·) xs))
  | some .min => some (reduce0 Min.min xs)
  | some .max => some (reduce0 Max.max xs)
  | none => none

/-! ### Error-carrying helpers (python exceptions) -/

def keyErr : String := "KeyError"
def idxErr : String := "IndexError"
def attrErr : String := "AttributeError"
def nameErr : String := "NameError"
def rtErr : String := "RuntimeError"

/-- The fatal configuration error of `__init__` (source lines 87-89). -/
def cfgErrMsg : String := "ValueError: out_channels must be divisible by heads"

/-- Ordered-dict lookup (python `d[k]`, successful case). -/
def dlookup {κ α : Type} [BEq κ] (l : List (κ × α)) (k : κ) : Option α :=
  (l.find? (fun p => p.1 == k)).map Prod.snd

/-- Python `d[k]`: KeyError when the key is absent. -/
def lookE {κ α : Type} [BEq κ] (l : List (κ × α)) (k : κ) : Except String α :=
  match dlookup l k with
  | some v => .ok v
  | none => .error keyErr

/-- Lift an optional value, raising the given python exception when absent. -/
def optE {α : Type} (msg : String) : Option α → Except String α
  | some a => .ok a
  | none => .error msg

/-- Effectful map used to embed python `for` loops that can raise. -/
def exMapM {α β : Type} (f : α → Except String β) : List α → Except String (List β)
  | [] => .ok []
  | a :: r => do
    let b ← f a
    let rs ← exMapM f r
    .ok (b :: rs)

/-! ### The layer state and external collaborators -/

/-- The state of a constructed `HGTConv` layer.  Learned parameters
(`aRel`/`mRel`/`pRel`/`skip` and the four projection maps) are fields, since
the external optimizer may have mutated them since construction; the numeric
collaborators (`fexp`, `fsqrt`, `fsigmoid`, `fgelu`) stand for the tensor
library primitives declared out of scope by the spec. -/
structure HGT where
  nodeTypes : List NType
  edgeTypes : List EType
  heads : Nat
  outChannels : Nat
  /-- the `group` constructor argument (`self.group`); `none` means stack -/
  group : Option Aggr
  /-- per edge type, `heads × headDim × headDim` attention matrix -/
  aRel : EType → List (List (List ℚ))
  /-- per edge type, `heads × headDim × headDim` message matrix -/
  mRel : EType → List (List (List ℚ))
  /-- per edge type, `heads` scalar priors -/
  pRel : EType → List ℚ
  /-- per node type, scalar skip gate -/
  skip : NType → ℚ
  kLin : NType → List ℚ → List ℚ
  qLin : NType → List ℚ → List ℚ
  vLin : NType → List ℚ → List ℚ
  aLin : NType → List ℚ → List ℚ
  fexp : ℚ → ℚ
  fsqrt : Nat → ℚ
  fsigmoid : ℚ → ℚ
  fgelu : ℚ → ℚ

def headDim (cfg : HGT) : Nat := cfg.outChannels / cfg.heads

/-- `self.src_types = [edge_type[0] for edge_type in self.edge_types]` (line 101). -/
def srcTypes (cfg : HGT) : List NType := cfg.edgeTypes.map (fun e => e.1)

/-- Source lines 87-89 with the construction sequencing of `__init__`:
the divisibility check precedes every parameter allocation, so a failing
check returns before anything is allocated.  The projection maps and the
initial `aRel`/`mRel` values come from external collaborators (random
Glorot initialisation and the linear layers are out of scope); `pRel` and
`skip` are initialised to ones by `reset_parameters` (lines 152-153).
`heads = 0` makes the python `%` raise ZeroDivisionError instead. -/
def hgtInit (outC heads : Nat) (metadata : List NType × List EType) (g : Option Aggr)
    (aR mR : EType → List (List (List ℚ)))
    (kL qL vL aL : NType → List ℚ → List ℚ)
    (fe : ℚ → ℚ) (fs : Nat → ℚ) (fsig fg : ℚ → ℚ) : Except String HGT :=
  if heads = 0 then .error "ZeroDivisionError"
  else if outC % heads ≠ 0 then .error cfgErrMsg
  else .ok
    { nodeTypes := metadata.1
      edgeTypes := metadata.2
      heads := heads
      outChannels := outC
      group := g
      aRel := aR
      mRel := mR
      pRel := fun _ => List.replicate heads 1
      skip := fun _ => 1
      kLin := kL, qLin := qL, vLin := vL, aLin := aL
      fexp := fe, fsqrt := fs, fsigmoid := fsig, fgelu := fg }

/-! ### Edge representations -/

/-- A `torch_sparse.SparseTensor`: a compressed adjacency whose `coo()`
triple is `(rows, cols, values)`.  The source reads it at line 261 as
`dst, src, _ = indices.coo()`, i.e. row = destination, col = source (the
library convention for adjacency tensors), which fixes the convention
used throughout this model. -/
structure SparseT where
  rows : List Nat
  cols : List Nat
  size1 : Nat
  size2 : Nat
deriving DecidableEq, Repr

/-- The two accepted connectivity representations: a dense `[2, E]`
coordinate-pair tensor (row 0 = source, row 1 = destination) or a
compressed sparse adjacency. -/
inductive EdgeRep where
  | dense (idx : List (Nat × Nat))
  | sparse (st : SparseT)
deriving DecidableEq, Repr

/-- `isinstance(indices, SparseTensor)`. -/
def isSparse : EdgeRep → Bool
  | .dense _ => false
  | .sparse _ => true

/-- Lines 258-262: a sparse input is converted to coordinate form
(`dst, src, _ = indices.coo(); indices = cat((src, dst))`); a dense input
is used as is.  The result is the list of (source, destination) pairs. -/
def toCoo : EdgeRep → List (Nat × Nat)
  | .dense l => l
  | .sparse st => List.zip st.cols st.rows

/-! ### Projection, segment batching, offsets -/

/-- Split a list into consecutive chunks of size `k` (torch `view`). -/
def chunksAux {α : Type} (k : Nat) : Nat → List α → List (List α)
  | 0, _ => []
  | _, [] => []
  | fuel + 1, l => l.take k :: chunksAux k fuel (l.drop k)

def chunksL {α : Type} (k : Nat) (l : List α) : List (List α) :=
  chunksAux k l.length l

/-- Lines 185-196: apply a per-type projection to every row of every type
and reshape each result row to `[heads, headDim]` (`view(-1, H, D)`).
The projector (`HeteroDictLinear`/`ToHeteroLinear`, not in src/) is
modelled from the spec as a per-type map producing `out_channels` wide
rows; the two strategies have identical external behavior per spec 4.1. -/
def projDict (cfg : HGT) (lin : NType → List ℚ → List ℚ) (x : List (NType × Mat)) :
    List (NType × Ten3) :=
  x.map (fun tm => (tm.1, tm.2.rows.map (fun r => chunksL (headDim cfg) (lin tm.1 r))))

/-- The boundary table of lines 229-239: starting from `[0]`, for every
edge type (in registry order) the running count advances `heads` times by
the row count of that edge type source tensor. -/
def ptrFromCounts (heads : Nat) (ns : List Nat) : List Nat :=
  (ns.foldl (fun (acc : List Nat × Nat) n =>
    (acc.1 ++ (List.range heads).map (fun i => acc.2 + (i + 1) * n), acc.2 + heads * n))
    ([0], 0)).1

/-- Lines 229-239, pointer part: `trans_ptr` built over `self.src_types`
(one source lookup per edge type; KeyError when a source type is absent
from the projected dict). -/
def buildTransPtr (cfg : HGT) (d : List (NType × Ten3)) : Except String (List Nat) := do
  let ks ← exMapM (fun e => lookE d e.1) cfg.edgeTypes
  .ok (ptrFromCounts cfg.heads (ks.map List.length))

/-- Lines 229-235, data part: `torch.cat(k_ins)` where each entry is
`k_dict[src_type].view(-1, D)`. -/
def catIns (cfg : HGT) (d : List (NType × Ten3)) : Except String (List (List ℚ)) := do
  let ks ← exMapM (fun e => lookE d e.1) cfg.edgeTypes
  .ok ((ks.map List.flatten).flatten)

/-- Row vector times matrix: `(v @ M)[j] = sum_i v[i] * M[i][j]`. -/
def vecMatMul (v : List ℚ) (M : List (List ℚ)) : List ℚ :=
  (List.range (M.headD []).length).map (fun j =>
    (List.zipWith (fun vi Mi => vi * Mi.getD j 0) v M).sum)

/-- Modelled from the spec: `pyg_lib.ops.segment_matmul` is an external
collaborator, the "Segment/grouped matmul: a batched matrix multiply where
different contiguous row-ranges of the input use different weight
matrices".  Row range `[ptr s, ptr (s+1))` is multiplied by `mats s`. -/
def segmentMatmul (x : List (List ℚ)) (ptr : List Nat) (mats : List (List (List ℚ))) :
    List (List ℚ) :=
  (List.range (ptr.length - 1)).flatMap (fun s =>
    ((x.drop (ptr.getD s 0)).take (ptr.getD (s + 1) 0 - ptr.getD s 0)).map
      (fun row => vecMatMul row (mats.getD s [])))

/-- Lines 246-249: the per-node-type row counts handed to
`make_node_slices`, obtained by slicing `k_out` between consecutive
`trans_ptr` entries indexed by the *node type* position.  Indexing
`trans_ptr` out of range is a python IndexError; tensor slicing clamps. -/
def buildTypeCounts (cfg : HGT) (ptr : List Nat) (kOut : Ten3) :
    Except String (List (NType × Nat)) :=
  exMapM (fun i => do
      let a ← optE idxErr (ptr.get? i)
      let b ← optE idxErr (ptr.get? (i + 1))
      .ok (cfg.nodeTypes.getD i "", ((kOut.drop a).take (b - a)).length))
    (List.range cfg.nodeTypes.length)

/-- Modelled from the spec: `make_node_slices`
(torch_geometric.data.hetero_data, not in src/) — "a deterministic
concatenation ordering over NodeTypes (registry order) defining offsets";
each type receives the half-open slice of the global index space after the
cumulated counts before it. -/
def makeNodeSlices (counts : List (NType × Nat)) : List (NType × (Nat × Nat)) :=
  (counts.foldl (fun (acc : List (NType × (Nat × Nat)) × Nat) tc =>
    (acc.1 ++ [(tc.1, (acc.2, acc.2 + tc.2))], acc.2 + tc.2)) ([], 0)).1

/-- Modelled from the spec: `offset_edge_idx`
(torch_geometric.data.hetero_data, not in src/) — "adding the source
type's offset to row 0 and the destination type's offset to row 1 for
each edge type's block". -/
def offsetEdgeIdx (slices : List (NType × (Nat × Nat))) (e : EType)
    (idx : List (Nat × Nat)) : Except String (List (Nat × Nat)) := do
  let sOff ← lookE slices e.1
  let dOff ← lookE slices e.2.2
  .ok (idx.map (fun p => (p.1 + sOff.1, p.2 + dOff.1)))

/-- Modelled from the spec: `combine_edge_slices`
(torch_geometric.data.hetero_data, not in src/) — "concatenating all
blocks in registry order". -/
def combineEdgeSlices (blocks : List (List (Nat × Nat))) : List (Nat × Nat) :=
  blocks.flatten

/-- Lines 252-274 (connectivity part): every edge type block is converted
to coordinate form, offset and concatenated; the loop variable `convert`
is overwritten each iteration, so after the loop it holds the value for
the *last* edge type, and line 271 turns the combined index back into a
sparse adjacency (with `row = e_idx[0]`, `col = e_idx[1]` and square size
`k_out.size(0)`) precisely when that flag is set.  With no edge types the
name `convert` was never assigned (python NameError). -/
def convertBack (cfg : HGT) (eDict : EType → EdgeRep) (kN : Nat)
    (eIdx : List (Nat × Nat)) : Except String EdgeRep :=
  match cfg.edgeTypes.getLast? with
  | none => .error nameErr
  | some last =>
    if isSparse (eDict last) then
      .ok (.sparse ⟨eIdx.map Prod.fst, eIdx.map Prod.snd, kN, kN⟩)
    else .ok (.dense eIdx)

def buildCombined (cfg : HGT) (eDict : EType → EdgeRep)
    (slices : List (NType × (Nat × Nat))) (kN : Nat) : Except String EdgeRep := do
  let blocks ← exMapM (fun e => offsetEdgeIdx slices e (toCoo (eDict e))) cfg.edgeTypes
  convertBack cfg eDict kN (combineEdgeSlices blocks)

/-- Line 265 and 268: `q = torch.cat([q_dict[e_type[-1]] for e_type in
edge_types])`; `torch.cat` of an empty list raises. -/
def qCat (cfg : HGT) (qD : List (NType × Ten3)) : Except String Ten3 := do
  let qs ← exMapM (fun e => lookE qD e.2.2) cfg.edgeTypes
  if qs.isEmpty then .error rtErr else .ok qs.flatten

/-- `p_rel.view(-1, 1)`: a `heads` vector as a `heads × 1` column tensor. -/
def colTsr (l : List ℚ) : Tsr := .vec (l.map (fun q => .vec [.scalar q]))

/-- Lines 266 and 269: `p = group(p_rels, self.group).view(-1)` where
`p_rels = [self.p_rel[t].view(-1, 1) for t in edge_types]`.  When `group`
returns `None` (no edge types) the `.view` call is an AttributeError. -/
def pVecE (cfg : HGT) : Except String (List ℚ) :=
  match group (cfg.edgeTypes.map (fun e => colTsr (cfg.pRel e))) cfg.group with
  | none => .error attrErr
  | some t => .ok (flattenT t)

/-! ### Attention / message engine -/

/-- Modelled from the spec: `torch_geometric.utils.softmax` (not in src/)
— "a grouped softmax primitive operating over an index array": entry
`(e, h)` is normalised over all entries `(e', h)` whose index (the
destination node) equals that of `e`, independently per head `h`.  The
float-stability max shift is a floating-point detail outside this model;
the mathematical value `exp x / sum exp` is used, with the exponential an
external collaborator. -/
def softmaxG (fexp : ℚ → ℚ) (alpha : List (List ℚ)) (index : List Nat) :
    List (List ℚ) :=
  let pairs := List.zip index alpha
  pairs.map (fun p =>
    p.2.mapIdx (fun h a =>
      fexp a /
        ((pairs.filterMap (fun p2 => if p2.1 = p.1 then p2.2.get? h else none)).map fexp).sum))

/-- Broadcasting of the `rel` argument (shape `[L]`) against the `[E, heads]`
score tensor: a length-1 vector broadcasts to every head. -/
def relRow (rel : List ℚ) (heads : Nat) : List ℚ :=
  if rel.length = 1 then List.replicate heads (rel.headD 0) else rel

/-- Source lines 304-311 (`HGTConv.message`):
```
alpha = (q_i * k_j).sum(dim=-1) * rel
alpha = alpha / math.sqrt(q_i.size(-1))
alpha = softmax(alpha, index, ptr, size_i)
out = v_j * alpha.view(-1, self.heads, 1)
return out.view(-1, self.out_channels)
```
`kj`, `qi`, `vj` are the edge-gathered `[E, heads, headDim]` tensors,
`index` the destination of each edge, `sq = sqrt(q_i.size(-1))`. -/
def message (fexp : ℚ → ℚ) (sq : ℚ) (kj qi vj : Ten3) (rel : List ℚ)
    (index : List Nat) : List (List ℚ) :=
  let alpha := (List.zipWith (fun qE kE => List.zipWith
      (fun qh kh => (List.zipWith (· * ·) qh kh).sum) qE kE) qi kj).map
    (fun row => (List.zipWith (· * ·) row (relRow rel row.length)).map (· / sq))
  let nrm := softmaxG fexp alpha index
  List.zipWith (fun vE aE => (List.zipWith (fun vh a => vh.map (· * a)) vE aE).flatten)
    vj nrm

/-- The attention step as the CLAIM C5 words it: per edge and head, the
unnormalised score is the dot product of the destination query with the
(relation-transformed) source key, divided by `sqrt(head_dim)` and
multiplied by the relation prior; the score is then softmax-normalised
over all edges sharing the destination node, per head, and weights the
source value vector. -/
def messageSpec (fexp : ℚ → ℚ) (sq : ℚ) (kj qi vj : Ten3) (rel : List ℚ)
    (index : List Nat) : List (List ℚ) :=
  let score := (List.zipWith (fun qE kE => List.zipWith
      (fun qh kh => (List.zipWith (· * ·) qh kh).sum) qE kE) qi kj).map
    (fun row => List.zipWith (fun a r => a / sq * r) row (relRow rel row.length))
  let nrm := softmaxG fexp score index
  List.zipWith (fun vE aE => (List.zipWith (fun vh a => vh.map (· * a)) vE aE).flatten)
    vj nrm

/-- Sum-aggregation per destination (`aggr='add'`, `node_dim=0`): row `i`
of the output is the sum of the message rows of the edges with
destination `i`; nodes without incoming edges get an all-zero row. -/
def scatterSum (C dimSize : Nat) (index : List Nat) (msg : List (List ℚ)) :
    List (List ℚ) :=
  (List.range dimSize).map (fun i =>
    ((List.zip index msg).filterMap (fun jr => if jr.1 = i then some jr.2 else none)).foldl
      (fun acc r => List.zipWith (· + ·) acc r) (List.replicate C 0))

/-- Modelled from the spec: `MessagePassing.propagate` (not in src/), flow
source-to-target.  For a dense pair tensor, sources are row 0 and
destinations row 1, and the aggregation size is the target-side tensor
(`q`) row count; for a sparse adjacency, destinations are the sparse rows
and sources the sparse cols — the same orientation the source itself uses
when reading `coo()` at line 261 — and the aggregation size is the first
sparse size.  Gathering with an out-of-range index raises. -/
def propagate (cfg : HGT) (rep : EdgeRep) (kOut vOut q : Ten3) (rel : List ℚ) :
    Except String (List (List ℚ)) := do
  let edges := match rep with
    | .dense l => l
    | .sparse st => List.zip st.cols st.rows
  let dimSize := match rep with
    | .dense _ => q.length
    | .sparse st => st.size1
  let kj ← exMapM (fun p => optE idxErr (kOut.get? p.1)) edges
  let qi ← exMapM (fun p => optE idxErr (q.get? p.2)) edges
  let vj ← exMapM (fun p => optE idxErr (vOut.get? p.1)) edges
  let msg := message cfg.fexp (cfg.fsqrt (headDim cfg)) kj qi vj rel (edges.map Prod.snd)
  .ok (scatterSum cfg.outChannels dimSize (edges.map Prod.snd) msg)

/-! ### Output composer -/

/-- Lines 278-281: the aggregated output is cut back into per-type row
ranges following the insertion order and row counts of `k_dict`; python
slicing clamps at the end of the tensor. -/
def sliceOut (kD : List (NType × Ten3)) (out : List (List ℚ)) :
    List (NType × List (List ℚ)) :=
  (kD.foldl (fun (acc : List (NType × List (List ℚ)) × Nat) tk =>
    (acc.1 ++ [(tk.1, (out.drop acc.2).take tk.2.length)], acc.2 + tk.2.length))
    ([], 0)).1

/-- Broadcasting semantics of `alpha * out + (1 - alpha) * x` for two
`[m, C]` and `[n, C]` tensors: equal row counts combine rowwise, a
single-row side broadcasts, anything else raises. -/
def blendRows (al : ℚ) (a x : List (List ℚ)) : Except String (List (List ℚ)) :=
  let f := fun (ar xr : List ℚ) =>
    List.zipWith (fun u w => al * u + (1 - al) * w) ar xr
  if a.length = x.length then .ok (List.zipWith f a x)
  else if a.length = 1 then .ok (x.map (fun xr => f (a.headD []) xr))
  else if x.length = 1 then .ok (a.map (fun ar => f ar (x.headD [])))
  else .error rtErr

/-- Lines 289-300, one entry of the output loop: `out = a_dict[node_type]`
has channel dimension `out_channels` (the post-linear transform is
`out_channels → out_channels`); when it equals the original input channel
dimension of the type, the output is blended with the input through the
sigmoid of the learned skip gate, otherwise it is returned as is.  The
`if out is None` branch of the loop is dead: sliced outputs are never
`None`. -/
def composeEntry (cfg : HGT) (xDict : List (NType × Mat)) :
    NType × List (List ℚ) → Except String (NType × Option Mat) :=
  fun ta => do
    let xm ← lookE xDict ta.1
    if cfg.outChannels = xm.cols then
      let b ← blendRows (cfg.fsigmoid (cfg.skip ta.1)) ta.2 xm.rows
      .ok (ta.1, some ⟨xm.cols, b⟩)
    else .ok (ta.1, some ⟨cfg.outChannels, ta.2⟩)

/-! ### The forward pass -/

/-- `HGTConv.forward` (lines 157-302), non-grouped-matmul branch
(`use_gmm = False`, lines 226-249; the grouped branch has the identical
external contract per spec 4.1).  Stages:
projections → segment pointer table and batched K/V transform →
node-slice table → combined edge index (+ `q`, `p`) → propagate →
per-type slicing → GELU + post-linear → skip blend. -/
def forward (cfg : HGT) (xDict : List (NType × Mat)) (eDict : EType → EdgeRep) :
    Except String (List (NType × Option Mat)) := do
  let kD := projDict cfg cfg.kLin xDict
  let qD := projDict cfg cfg.qLin xDict
  let vD := projDict cfg cfg.vLin xDict
  let ptr ← buildTransPtr cfg kD
  let kIns ← catIns cfg kD
  let vIns ← catIns cfg vD
  let kOut := chunksL cfg.heads
    (segmentMatmul kIns ptr ((cfg.edgeTypes.map cfg.aRel).flatten))
  let vOut := chunksL cfg.heads
    (segmentMatmul vIns ptr ((cfg.edgeTypes.map cfg.mRel).flatten))
  let counts ← buildTypeCounts cfg ptr kOut
  let slices := makeNodeSlices counts
  let q ← qCat cfg qD
  let p ← pVecE cfg
  let rep ← buildCombined cfg eDict slices kOut.length
  let out ← propagate cfg rep kOut vOut q p
  let aPairs := (sliceOut kD out).map (fun tp =>
    (tp.1, tp.2.map (fun r => cfg.aLin tp.1 (r.map cfg.fgelu))))
  exMapM (composeEntry cfg xDict) aPairs

/-! ### Spec-side comparison definitions -/

/-- Elementwise sum of a list of equal-length vectors. -/
def sumAll : List (List ℚ) → List ℚ
  | [] => []
  | x :: r => r.foldl (List.zipWith (· + ·)) x

/-- The relation prior as claim C3 words it (formalised for the default
"sum" reduction): the prior of an edge type combined only with the priors
of the edge types sharing its destination node type. -/
def specPriorFor (cfg : HGT) (t : EType) : List ℚ :=
  sumAll ((cfg.edgeTypes.filter (fun e => e.2.2 == t.2.2)).map cfg.pRel)

/-! ### Concrete instances used by the evaluation theorems

All of them use exact stand-ins for the external numeric collaborators
(`fexp` constant, `fsqrt 1 = 1` exactly, sigmoid of the all-zero skip gate
one half, identity GELU and identity linear layers): the refuted claims
quantify over those collaborators, so a single concrete instantiation
falsifies them, and the chosen graphs keep every softmax group a singleton
so the value of the exponential cancels exactly. -/

def idLin : NType → List ℚ → List ℚ := fun _ r => r

/-- One node type with two nodes, one edge type with an *empty* edge list:
node type "A" receives no message at all. -/
def cfgC1 : HGT :=
  { nodeTypes := ["A"], edgeTypes := [("A", "r", "A")], heads := 1, outChannels := 1
    group := some .sum
    aRel := fun _ => [[[2]]], mRel := fun _ => [[[3]]], pRel := fun _ => [1]
    skip := fun _ => 0
    kLin := idLin, qLin := idLin, vLin := idLin, aLin := idLin
    fexp := fun _ => 1, fsqrt := fun _ => 1, fsigmoid := fun _ => 1 / 2
    fgelu := fun x => x }

def xC1 : List (NType × Mat) := [("A", ⟨1, [[5], [9]]⟩)]

def eC1 : EType → EdgeRep := fun _ => .dense []

/-- Two nodes of one type, identity relation matrices, one directed edge
`0 → 1`, offered once as a dense pair tensor and once as the equivalent
sparse adjacency (row = destination, col = source, the orientation the
source itself reads at line 261). -/
def cfgC2 : HGT :=
  { cfgC1 with aRel := fun _ => [[[1]]], mRel := fun _ => [[[1]]] }

def xC2 : List (NType × Mat) := [("A", ⟨1, [[1], [2]]⟩)]

def eC2dense : EType → EdgeRep := fun _ => .dense [(0, 1)]

def eC2sparse : EType → EdgeRep := fun _ => .sparse ⟨[1], [0], 2, 2⟩

/-- Two edge types with *different* destination node types and different
priors (2 for `r1 : A → A`, 5 for `r2 : A → B`), default "sum" grouping. -/
def cfgC3 : HGT :=
  { cfgC1 with
    nodeTypes := ["A", "B"]
    edgeTypes := [("A", "r1", "A"), ("A", "r2", "B")]
    pRel := fun e => if e.2.1 = "r1" then [2] else [5] }

/-- Two heads, node type "A" with one node and "B" with two: the pointer
table `[0, 1, 2, 4, 6]` is indexed at node-type positions by lines
246-249, giving "B" a one-row slice. -/
def cfgC4 : HGT :=
  { cfgC1 with
    nodeTypes := ["A", "B"]
    edgeTypes := [("A", "r1", "A"), ("B", "r2", "B")]
    heads := 2, outChannels := 2
    aRel := fun _ => [[[1]], [[1]]], mRel := fun _ => [[[1]], [[1]]]
    pRel := fun _ => [1, 1]
    kLin := fun _ r => [r.headD 0, r.headD 0]
    qLin := fun _ r => [r.headD 0, r.headD 0]
    vLin := fun _ r => [r.headD 0, r.headD 0] }

def xC4 : List (NType × Mat) := [("A", ⟨1, [[1]]⟩), ("B", ⟨1, [[2], [3]]⟩)]

def kDC4 : List (NType × Ten3) := projDict cfgC4 cfgC4.kLin xC4

def kOutC4 : Ten3 :=
  chunksL 2 (segmentMatmul [[1], [1], [2], [2], [3], [3]] [0, 1, 2, 4, 6]
    ((cfgC4.edgeTypes.map cfgC4.aRel).flatten))

/-- Two relations `r1, r2 : A → A` with distinct attention/message
matrices, one self-loop edge each. -/
def cfgC8 : HGT :=
  { cfgC1 with
    edgeTypes := [("A", "r1", "A"), ("A", "r2", "A")]
    aRel := fun e => if e.2.1 = "r1" then [[[2]]] else [[[3]]]
    mRel := fun e => if e.2.1 = "r1" then [[[10]]] else [[[20]]] }

/-- The same layer with the two edge types listed in the opposite order
(the parameter maps are keyed by edge type, so the permuted metadata keeps
every edge type paired with the same parameters). -/
def cfgC8perm : HGT :=
  { cfgC8 with edgeTypes := [("A", "r2", "A"), ("A", "r1", "A")] }

def xC8 : List (NType × Mat) := [("A", ⟨1, [[1], [1]]⟩)]

def eC8 : EType → EdgeRep :=
  fun e => if e.2.1 = "r1" then .dense [(0, 0)] else .dense [(1, 1)]

/-- Mixed-representation input: the first edge type sparse, the last dense. -/
def cfgC10 : HGT :=
  { cfgC1 with
    nodeTypes := ["A", "B"]
    edgeTypes := [("A", "r1", "B"), ("B", "r2", "B")] }

def eC10 : EType → EdgeRep :=
  fun e => if e.2.1 = "r1" then .sparse ⟨[0], [0], 2, 3⟩ else .dense [(0, 0)]

def slicesC10 : List (NType × (Nat × Nat)) := [("A", (0, 2)), ("B", (2, 3))]

def xC6 : List (NType × Mat) := [("A", ⟨1, [[3]]⟩)]

/-- Whether an exceptional computation succeeded. -/
def isOk {ε α : Type} : Except ε α → Bool
  | .ok _ => true
  | .error _ => false

/-! ## Theorems -/

theorem errBind {α β : Type} (e : String) (f : α → Except String β) :
    ((Except.error e : Except String α) >>= f) = .error e := rfl

theorem okBind {α β : Type} (a : α) (f : α → Except String β) :
    ((Except.ok a : Except String α) >>= f) = f a := rfl

theorem bindErr {α β : Type} {x : Except String α} {f : α → Except String β} {s : String}
    (h : (x >>= f) = .error s) : x = .error s ∨ ∃ a, x = .ok a ∧ f a = .error s := by
  cases x with
  | error e => rw [errBind] at h; injection h with h1; exact Or.inl (by rw [h1])
  | ok a => rw [okBind] at h; exact Or.inr ⟨a, rfl, h⟩

theorem bindOk {α β : Type} {x : Except String α} {f : α → Except String β} {b : β}
    (h : (x >>= f) = .ok b) : ∃ a, x = .ok a ∧ f a = .ok b := by
  cases x with
  | error e => rw [errBind] at h; exact absurd h (by simp)
  | ok a => rw [okBind] at h; exact ⟨a, rfl, h⟩

theorem exMapM_err {α β : Type} {f : α → Except String β} {l : List α} {s : String}
    (h : exMapM f l = .error s) : ∃ a ∈ l, f a = .error s := by
  induction l with
  | nil => simp [exMapM] at h
  | cons a r ih =>
    simp only [exMapM] at h
    rcases bindErr h with h1 | ⟨b, _, h2⟩
    · exact ⟨a, List.mem_cons_self a r, h1⟩
    · rcases bindErr h2 with h3 | ⟨rs, _, h4⟩
      · rcases ih h3 with ⟨a2, ha2, hf⟩
        exact ⟨a2, List.mem_cons_of_mem a ha2, hf⟩
      · exact absurd h4 (by simp)

theorem lookE_err {κ α : Type} [BEq κ] {l : List (κ × α)} {k : κ} {s : String}
    (h : lookE l k = .error s) : s = keyErr := by
  unfold lookE at h
  split at h
  · exact absurd h (by simp)
  · injection h with h1; exact h1.symm

theorem optE_err {α : Type} {msg s : String} {o : Option α}
    (h : optE msg o = .error s) : s = msg := by
  cases o with
  | some a => exact absurd h (by simp [optE])
  | none => unfold optE at h; injection h with h1; exact h1.symm

theorem buildTransPtr_ne_cfgErr {cfg : HGT} {d : List (NType × Ten3)} {s : String}
    (h : buildTransPtr cfg d = .error s) : s ≠ cfgErrMsg := by
  unfold buildTransPtr at h
  rcases bindErr h with h1 | ⟨ks, _, h2⟩
  · rcases exMapM_err h1 with ⟨a, _, hf⟩
    rw [lookE_err hf]; decide
  · exact absurd h2 (by simp)

theorem catIns_ne_cfgErr {cfg : HGT} {d : List (NType × Ten3)} {s : String}
    (h : catIns cfg d = .error s) : s ≠ cfgErrMsg := by
  unfold catIns at h
  rcases bindErr h with h1 | ⟨ks, _, h2⟩
  · rcases exMapM_err h1 with ⟨a, _, hf⟩
    rw [lookE_err hf]; decide
  · exact absurd h2 (by simp)

theorem buildTypeCounts_ne_cfgErr {cfg : HGT} {ptr : List Nat} {kOut : Ten3} {s : String}
    (h : buildTypeCounts cfg ptr kOut = .error s) : s ≠ cfgErrMsg := by
  unfold buildTypeCounts at h
  rcases exMapM_err h with ⟨i, _, hf⟩
  rcases bindErr hf with h1 | ⟨a, _, h2⟩
  · rw [optE_err h1]; decide
  · rcases bindErr h2 with h3 | ⟨b, _, h4⟩
    · rw [optE_err h3]; decide
    · exact absurd h4 (by simp)

theorem qCat_ne_cfgErr {cfg : HGT} {qD : List (NType × Ten3)} {s : String}
    (h : qCat cfg qD = .error s) : s ≠ cfgErrMsg := by
  unfold qCat at h
  rcases bindErr h with h1 | ⟨qs, _, h2⟩
  · rcases exMapM_err h1 with ⟨a, _, hf⟩
    rw [lookE_err hf]; decide
  · split at h2
    · injection h2 with h3; rw [← h3]; decide
    · exact absurd h2 (by simp)

theorem pVecE_ne_cfgErr {cfg : HGT} {s : String}
    (h : pVecE cfg = .error s) : s ≠ cfgErrMsg := by
  unfold pVecE at h
  split at h
  · injection h with h1; rw [← h1]; decide
  · exact absurd h (by simp)

theorem offsetEdgeIdx_ne_cfgErr {slices : List (NType × (Nat × Nat))} {e : EType}
    {idx : List (Nat × Nat)} {s : String}
    (h : offsetEdgeIdx slices e idx = .error s) : s ≠ cfgErrMsg := by
  unfold offsetEdgeIdx at h
  rcases bindErr h with h1 | ⟨a, _, h2⟩
  · rw [lookE_err h1]; decide
  · rcases bindErr h2 with h3 | ⟨b, _, h4⟩
    · rw [lookE_err h3]; decide
    · exact absurd h4 (by simp)

theorem convertBack_ne_cfgErr {cfg : HGT} {eDict : EType → EdgeRep} {kN : Nat}
    {eIdx : List (Nat × Nat)} {s : String}
    (h : convertBack cfg eDict kN eIdx = .error s) : s ≠ cfgErrMsg := by
  unfold convertBack at h
  split at h
  · injection h with h1; rw [← h1]; decide
  · split at h <;> exact absurd h (by simp)

theorem buildCombined_ne_cfgErr {cfg : HGT} {eDict : EType → EdgeRep}
    {slices : List (NType × (Nat × Nat))} {kN : Nat} {s : String}
    (h : buildCombined cfg eDict slices kN = .error s) : s ≠ cfgErrMsg := by
  unfold buildCombined at h
  rcases bindErr h with h1 | ⟨blocks, _, h2⟩
  · rcases exMapM_err h1 with ⟨a, _, hf⟩
    exact offsetEdgeIdx_ne_cfgErr hf
  · exact convertBack_ne_cfgErr h2

theorem propagate_ne_cfgErr {cfg : HGT} {rep : EdgeRep} {kOut vOut q : Ten3}
    {rel : List ℚ} {s : String}
    (h : propagate cfg rep kOut vOut q rel = .error s) : s ≠ cfgErrMsg := by
  unfold propagate at h
  rcases bindErr h with h1 | ⟨kj, _, h2⟩
  · rcases exMapM_err h1 with ⟨a, _, hf⟩
    rw [optE_err hf]; decide
  · rcases bindErr h2 with h3 | ⟨qi, _, h4⟩
    · rcases exMapM_err h3 with ⟨a, _, hf⟩
      rw [optE_err hf]; decide
    · rcases bindErr h4 with h5 | ⟨vj, _, h6⟩
      · rcases exMapM_err h5 with ⟨a, _, hf⟩
        rw [optE_err hf]; decide
      · exact absurd h6 (by simp)

theorem blendRows_ne_cfgErr {al : ℚ} {a x : List (List ℚ)} {s : String}
    (h : blendRows al a x = .error s) : s ≠ cfgErrMsg := by
  unfold blendRows at h
  split at h
  · exact absurd h (by simp)
  · split at h
    · exact absurd h (by simp)
    · split at h
      · exact absurd h (by simp)
      · injection h with h1; rw [← h1]; decide

theorem composeEntry_ne_cfgErr {cfg : HGT} {xDict : List (NType × Mat)}
    {ta : NType × List (List ℚ)} {s : String}
    (h : composeEntry cfg xDict ta = .error s) : s ≠ cfgErrMsg := by
  unfold composeEntry at h
  rcases bindErr h with h1 | ⟨xm, _, h2⟩
  · rw [lookE_err h1]; decide
  · split at h2
    · rcases bindErr h2 with h3 | ⟨b, _, h4⟩
      · exact blendRows_ne_cfgErr h3
      · exact absurd h4 (by simp)
    · exact absurd h2 (by simp)

/-- No branch of `forward` produces the construction-time configuration
error message: a non-divisible heads/channels pair is reported by
`__init__` alone, never mid-computation. -/
theorem forward_ne_cfgErr (cfg : HGT) (x : List (NType × Mat)) (e : EType → EdgeRep)
    (s : String) (h : forward cfg x e = .error s) : s ≠ cfgErrMsg := by
  unfold forward at h
  rcases bindErr h with h1 | ⟨ptr, _, h⟩
  · exact buildTransPtr_ne_cfgErr h1
  rcases bindErr h with h1 | ⟨kIns, _, h⟩
  · exact catIns_ne_cfgErr h1
  rcases bindErr h with h1 | ⟨vIns, _, h⟩
  · exact catIns_ne_cfgErr h1
  rcases bindErr h with h1 | ⟨counts, _, h⟩
  · exact buildTypeCounts_ne_cfgErr h1
  rcases bindErr h with h1 | ⟨q, _, h⟩
  · exact qCat_ne_cfgErr h1
  rcases bindErr h with h1 | ⟨p, _, h⟩
  · exact pVecE_ne_cfgErr h1
  rcases bindErr h with h1 | ⟨rep, _, h⟩
  · exact buildCombined_ne_cfgErr h1
  rcases bindErr h with h1 | ⟨out, _, h⟩
  · exact propagate_ne_cfgErr h1
  rcases exMapM_err h with ⟨a, _, hf⟩
  exact composeEntry_ne_cfgErr hf

theorem zipT_vec (f : ℚ → ℚ → ℚ) (l m : List Tsr) :
    zipT f (.vec l) (.vec m) = .vec (zipTL f l m) := rfl

theorem zipTL_map (a b : List ℚ) :
    zipTL (· + ·) (a.map (fun q => Tsr.vec [Tsr.scalar q]))
        (b.map (fun q => Tsr.vec [Tsr.scalar q]))
      = (List.zipWith (· + ·) a b).map (fun q => Tsr.vec [Tsr.scalar q]) := by
  induction a generalizing b with
  | nil => cases b <;> rfl
  | cons x xs ih =>
    cases b with
    | nil => rfl
    | cons y ys =>
      simp only [List.map_cons, List.zipWith_cons_cons, zipTL, zipT, ih ys]

theorem zipT_colTsr (a b : List ℚ) :
    zipT (· + ·) (colTsr a) (colTsr b) = colTsr (List.zipWith (· + ·) a b) := by
  unfold colTsr
  rw [zipT_vec, zipTL_map]

theorem foldl_zipT_colTsr (ls : List (List ℚ)) (init : List ℚ) :
    (ls.map colTsr).foldl (zipT (· + ·)) (colTsr init)
      = colTsr (ls.foldl (List.zipWith (· + ·)) init) := by
  induction ls generalizing init with
  | nil => rfl
  | cons x xs ih =>
    simp only [List.map_cons, List.foldl_cons, zipT_colTsr]
    exact ih _

theorem flattenTL_map (l : List ℚ) :
    flattenTL (l.map (fun q => Tsr.vec [Tsr.scalar q])) = l := by
  induction l with
  | nil => rfl
  | cons x xs ih =>
    simp only [List.map_cons, flattenTL, flattenT, List.append_nil, ih]
    rfl

theorem flattenT_colTsr (l : List ℚ) : flattenT (colTsr l) = l := by
  unfold colTsr
  rw [show ∀ L, flattenT (.vec L) = flattenTL L from fun _ => rfl, flattenTL_map]

/-- On a nonempty list of column tensors, `group` with the default "sum"
reduction computes the elementwise sum of all the columns. -/
theorem group_map_colTsr_sum (ps : List (List ℚ)) (h : ps ≠ []) :
    group (ps.map colTsr) (some Aggr.sum) = some (colTsr (sumAll ps)) := by
  cases ps with
  | nil => exact absurd rfl h
  | cons p0 rest =>
    cases rest with
    | nil => rfl
    | cons p1 ps2 =>
      unfold group
      rw [if_neg (by simp), if_neg (by simp), if_neg (by simp)]
      show some (reduce0 (· + ·) ((p0 :: p1 :: ps2).map colTsr))
        = some (colTsr (sumAll (p0 :: p1 :: ps2)))
      rw [show reduce0 (· + ·) ((p0 :: p1 :: ps2).map colTsr)
          = ((p1 :: ps2).map colTsr).foldl (zipT (· + ·)) (colTsr p0) from rfl]
      rw [foldl_zipT_colTsr]
      rfl

/-- C1: the claim says a node type with zero incoming edges yields the
explicit no-value result (`None`) in the returned mapping.  Evaluating
`forward` on a graph whose only node type receives no message (one edge
type, empty edge list) shows the code instead returns a numeric matrix
(the zero aggregate is GELU-transformed, post-linearly mapped and blended
with the input through the skip gate), i.e. `some` a tensor, never
`none` — contradicting both the claim and the function docstring. -/
theorem claim1_isolated_type_gets_numeric_output :
    forward cfgC1 xC1 eC1 = .ok [("A", some ⟨1, [[5 / 2], [9 / 2]]⟩)] := by
  with_unfolding_all rfl

/-- C2: the claim says the compressed-sparse and dense-pair paths produce
numerically identical results for the same topology.  For the single edge
`0 → 1` (sparse adjacency written in the row = destination, col = source
orientation that line 261 itself reads), the dense path delivers the
message to node 1 while the sparse path — whose conversion back at line
273 builds the adjacency with row = source — delivers it to node 0: the
two outputs differ. -/
theorem claim2_sparse_dense_paths_disagree :
    forward cfgC2 xC2 eC2dense = .ok [("A", some ⟨1, [[1 / 2], [3 / 2]]⟩)]
    ∧ forward cfgC2 xC2 eC2sparse = .ok [("A", some ⟨1, [[3 / 2], [1]]⟩)]
    ∧ ([("A", some (⟨1, [[1 / 2], [3 / 2]]⟩ : Mat))] : List (NType × Option Mat))
      ≠ [("A", some ⟨1, [[3 / 2], [1]]⟩)] :=
  ⟨by with_unfolding_all rfl, by with_unfolding_all rfl, by with_unfolding_all decide⟩

/-- C3, counterexample: with two edge types of *different* destination
node types and priors `[2]` (for `r1 : A → A`) and `[5]` (for
`r2 : A → B`), the code computes a single per-head prior `[7]` — the
"sum" reduction over *all* edge types — which every edge receives by
broadcast; the claim instead demands that an `r1` edge receive only the
combination over destination-"A" relations, `[2]`. -/
theorem claim3_prior_not_destination_grouped :
    pVecE cfgC3 = .ok [7]
    ∧ specPriorFor cfgC3 ("A", "r1", "A") = [2]
    ∧ (7 : ℚ) ≠ 2 :=
  ⟨by with_unfolding_all rfl, rfl, by norm_num⟩

/-- C3, amended: for the default "sum" grouping and a nonempty edge-type
registry, the prior vector used by the attention step is the elementwise
sum of the `p_rel` vectors of *all* edge types — one scalar per head,
shared by every edge regardless of its type or destination (it is
broadcast against the per-edge score tensor in `message`). -/
theorem claim3_amended_prior_global_reduction (cfg : HGT)
    (h1 : cfg.group = some Aggr.sum) (h2 : cfg.edgeTypes ≠ []) :
    pVecE cfg = .ok (sumAll (cfg.edgeTypes.map cfg.pRel)) := by
  unfold pVecE
  rw [h1]
  have hmap : cfg.edgeTypes.map (fun e => colTsr (cfg.pRel e))
      = (cfg.edgeTypes.map cfg.pRel).map colTsr := by
    rw [List.map_map]
    rfl
  rw [hmap, group_map_colTsr_sum _ (by simpa using h2)]
  show Except.ok (flattenT (colTsr (sumAll (cfg.edgeTypes.map cfg.pRel)))) = _
  rw [flattenT_colTsr]

theorem claim3_amended_prior_global_reduction_witness :
    pVecE cfgC3 = .ok (sumAll (cfgC3.edgeTypes.map cfgC3.pRel)) :=
  claim3_amended_prior_global_reduction cfgC3 rfl (by decide)

/-- C4: the claim says the boundary table exactly partitions the
concatenated input *and* the per-node-type slice table derived from it
matches each type's row count.  At `heads = 2` with node types A (1 node)
and B (2 nodes) and edge types `A → A`, `B → B`, the pointer table
`[0, 1, 2, 4, 6]` does partition the 6 concatenated rows (first part of
the claim), but lines 246-249 index it by *node type position* over the
`(edge type × head)`-segmented `k_out`, deriving a 1-row count for B,
whose tensor has 2 rows — the second part fails. -/
theorem claim4_slice_table_mismatch :
    buildTransPtr cfgC4 kDC4 = .ok [0, 1, 2, 4, 6]
    ∧ catIns cfgC4 kDC4 = .ok [[1], [1], [2], [2], [3], [3]]
    ∧ buildTypeCounts cfgC4 [0, 1, 2, 4, 6] kOutC4 = .ok [("A", 1), ("B", 1)]
    ∧ (dlookup xC4 "B").map (fun m => m.rows.length) = some 2 :=
  ⟨rfl, by with_unfolding_all rfl, by with_unfolding_all rfl, rfl⟩

/-- C5: the unnormalised attention score of `message` equals, per edge
and head, the destination query . (relation-transformed) source key dot
product divided by `sqrt(head_dim)` and multiplied by the relation prior,
then softmax-normalised per destination node and head and used to weight
the source values: the code computes `(q . k) * rel / sqrt(d)`, the spec
formula `(q . k) / sqrt(d) * rel`, and the two agree. -/
theorem claim5_message_score_matches_spec (fexp : ℚ → ℚ) (sq : ℚ)
    (kj qi vj : Ten3) (rel : List ℚ) (index : List Nat) :
    message fexp sq kj qi vj rel index = messageSpec fexp sq kj qi vj rel index := by
  have hfun : (fun row : List ℚ =>
      (List.zipWith (· * ·) row (relRow rel row.length)).map (· / sq))
      = fun row => List.zipWith (fun a r => a / sq * r) row (relRow rel row.length) := by
    funext row
    rw [List.map_zipWith]
    have : (fun a b : ℚ => a * b / sq) = fun a b => a / sq * b := by
      funext a b
      rw [mul_div_right_comm]
    rw [this]
  simp only [message, messageSpec, hfun]

/-- C6: for every node type whose entry reaches the output composer, the
returned value is the sigmoid-gated blend of the post-linear transform
with the original input when the transform's channel dimension
(`out_channels`) equals the type's input channel dimension, and the
transform alone otherwise. -/
theorem claim6_skip_gate_blend (cfg : HGT) (xDict : List (NType × Mat)) (t : NType)
    (aRows : List (List ℚ)) (xm : Mat)
    (hx : dlookup xDict t = some xm) (hr : aRows.length = xm.rows.length) :
    composeEntry cfg xDict (t, aRows) =
      if cfg.outChannels = xm.cols then
        .ok (t, some ⟨xm.cols, List.zipWith (fun ar xr => List.zipWith
          (fun a x => cfg.fsigmoid (cfg.skip t) * a
            + (1 - cfg.fsigmoid (cfg.skip t)) * x) ar xr) aRows xm.rows⟩)
      else .ok (t, some ⟨cfg.outChannels, aRows⟩) := by
  have hl : lookE xDict t = .ok xm := by unfold lookE; rw [hx]
  unfold composeEntry
  rw [hl, okBind]
  by_cases hc : cfg.outChannels = xm.cols
  · rw [if_pos hc, if_pos hc]
    unfold blendRows
    rw [if_pos hr, okBind]
  · rw [if_neg hc, if_neg hc]

theorem claim6_skip_gate_blend_witness :
    composeEntry cfgC1 xC6 ("A", [[5]]) =
      if cfgC1.outChannels = (⟨1, [[3]]⟩ : Mat).cols then
        .ok ("A", some ⟨(⟨1, [[3]]⟩ : Mat).cols, List.zipWith (fun ar xr => List.zipWith
          (fun a x => cfgC1.fsigmoid (cfgC1.skip "A") * a
            + (1 - cfgC1.fsigmoid (cfgC1.skip "A")) * x) ar xr)
          [[5]] (⟨1, [[3]]⟩ : Mat).rows⟩)
      else .ok ("A", some ⟨cfgC1.outChannels, [[5]]⟩) :=
  claim6_skip_gate_blend cfgC1 xC6 "A" [[5]] ⟨1, [[3]]⟩ rfl rfl

/-- C7: construction fails with the configuration error exactly when
`out_channels` is not divisible by `heads` (for a positive head count;
`heads = 0` makes the python `%` itself raise), the check preceding every
parameter allocation in `hgtInit`; and no error produced anywhere in
`forward` is that configuration error. -/
theorem claim7_construction_check (outC heads : Nat) (md : List NType × List EType)
    (g : Option Aggr) (aR mR : EType → List (List (List ℚ)))
    (kL qL vL aL : NType → List ℚ → List ℚ)
    (fe : ℚ → ℚ) (fs : Nat → ℚ) (fsig fg : ℚ → ℚ)
    (hpos : 0 < heads) :
    (isOk (hgtInit outC heads md g aR mR kL qL vL aL fe fs fsig fg) = true
      ↔ outC % heads = 0)
    ∧ ∀ (cfg : HGT) (x : List (NType × Mat)) (e : EType → EdgeRep) (s : String),
        forward cfg x e = .error s → s ≠ cfgErrMsg := by
  constructor
  · unfold hgtInit
    rw [if_neg (Nat.pos_iff_ne_zero.mp hpos)]
    by_cases hd : outC % heads = 0
    · rw [if_neg (not_not_intro hd)]
      simp [isOk, hd]
    · rw [if_pos hd]
      simp [isOk, hd]
  · exact forward_ne_cfgErr

theorem claim7_construction_check_witness :
    (isOk (hgtInit 4 2 (["A"], [("A", "r", "A")]) (some .sum)
        (fun _ => [[[1]]]) (fun _ => [[[1]]]) idLin idLin idLin idLin
        (fun _ => 1) (fun _ => 1) (fun _ => 1) (fun _ => 1)) = true
      ↔ 4 % 2 = 0)
    ∧ ∀ (cfg : HGT) (x : List (NType × Mat)) (e : EType → EdgeRep) (s : String),
        forward cfg x e = .error s → s ≠ cfgErrMsg :=
  claim7_construction_check 4 2 (["A"], [("A", "r", "A")]) (some .sum)
    (fun _ => [[[1]]]) (fun _ => [[[1]]]) idLin idLin idLin idLin
    (fun _ => 1) (fun _ => 1) (fun _ => 1) (fun _ => 1) (by decide)

/-- C8: the claim says permuting the edge types in the metadata (with the
parameter maps permuted correspondingly — automatic here, the parameters
being keyed by edge type) leaves the output unchanged.  With two
relations `r1, r2 : A → A` carrying distinct matrices, the two orders
give different outputs: the combined global index built against the
(broken) node-slice table always addresses the rows transformed by the
*first-listed* relation, so swapping the order swaps which relation's
`a_rel`/`m_rel` are in effect for every edge. -/
theorem claim8_edge_type_permutation_changes_output :
    forward cfgC8 xC8 eC8 = .ok [("A", some ⟨1, [[11 / 2], [11 / 2]]⟩)]
    ∧ forward cfgC8perm xC8 eC8 = .ok [("A", some ⟨1, [[21 / 2], [21 / 2]]⟩)]
    ∧ ([("A", some (⟨1, [[11 / 2], [11 / 2]]⟩ : Mat))] : List (NType × Option Mat))
      ≠ [("A", some ⟨1, [[21 / 2], [21 / 2]]⟩)] :=
  ⟨by with_unfolding_all rfl, by with_unfolding_all rfl, by with_unfolding_all decide⟩

/-- C9: `group` of an empty list is `None` for every mode, and for every
non-`None` mode (including "cat") `group` of a singleton returns its
element unchanged — the `len(xs) == 1` early return precedes every
mode-specific branch. -/
theorem claim9_group_empty_none_singleton_id :
    (∀ aggr : Option Aggr, group [] aggr = none)
    ∧ ∀ (a : Aggr) (x : Tsr), group [x] (some a) = some x := by
  constructor
  · intro aggr; rfl
  · intro a x; rfl

/-- C10: after the conversion loop, the flag deciding whether the
combined edge index is turned back into a sparse adjacency is the loop
variable of the *last* iteration, so the returned representation is
sparse exactly when the last edge type's input was sparse, whatever the
earlier edge types used. -/
theorem claim10_last_edge_type_decides_rep (cfg : HGT) (eDict : EType → EdgeRep)
    (slices : List (NType × (Nat × Nat))) (kN : Nat) (last : EType) (rep : EdgeRep)
    (hl : cfg.edgeTypes.getLast? = some last)
    (hok : buildCombined cfg eDict slices kN = .ok rep) :
    isSparse rep = isSparse (eDict last) := by
  unfold buildCombined at hok
  rcases bindOk hok with ⟨blocks, _, h2⟩
  unfold convertBack at h2
  split at h2
  next heq =>
    rw [hl] at heq
    simp at heq
  next lastX heq =>
    rw [hl] at heq
    injection heq with hlast
    subst hlast
    split at h2
    next hif =>
      injection h2 with h3
      rw [← h3, hif]
      rfl
    next hif =>
      injection h2 with h3
      have hb : isSparse (eDict last) = false := by
        cases hbb : isSparse (eDict last)
        · rfl
        · exact absurd hbb hif
      rw [← h3, hb]
      rfl

theorem claim10_last_edge_type_decides_rep_witness :
    isSparse (EdgeRep.dense [(0, 2), (2, 2)]) = isSparse (eC10 ("B", "r2", "B")) :=
  claim10_last_edge_type_decides_rep cfgC10 eC10 slicesC10 3 ("B", "r2", "B")
    (EdgeRep.dense [(0, 2), (2, 2)]) rfl rfl

end HGTVerify
